import Mathlib

/-!
Verification development for the github-profile-stats repository.

The Python source (src/cache_utils.py, src/github_stats.py,
src/generate_images.py) is shallowly embedded below:

* JSON values manipulated by the program are the inductive `JVal`;
  Python `dict`s appear as association lists with unique keys
  (`dinsert` replaces in place, like Python key assignment).
* Python exceptions (KeyError, ValueError, AttributeError,
  ZeroDivisionError, transport exceptions) are `Except Unit`.
* `datetime.utcnow()` is an explicit `now : String` parameter.
* The cache file on disk is `FileState`; `json.dump`/`json.load` round
  a document through the file unchanged at this level of abstraction.
* Network calls are oracle parameters: a call site that issues one REST
  request per item additionally returns the number of requests issued.
-/

inductive JVal where
  | jnull
  | jbool (b : Bool)
  | jint (n : Int)
  | jstr (s : String)
  | jarr (xs : List JVal)
  | jobj (fields : List (String × JVal))

namespace JVal

/-- Python truthiness of a JSON-decoded value (`bool(x)`). -/
def pyTruthy : JVal → Bool
  | jnull => false
  | jbool b => b
  | jint n => n ≠ 0
  | jstr s => s ≠ ""
  | jarr xs => ¬ xs.isEmpty
  | jobj fs => ¬ fs.isEmpty

end JVal

/-- First-match lookup in an association list (Python `dict` access). -/
def dlookup (fs : List (String × JVal)) (k : String) : Option JVal :=
  match fs with
  | [] => none
  | (k', v) :: rest => if k' = k then some v else dlookup rest k

/-- Python `d[k] = v`: replace the value at an existing key in place,
otherwise append the new binding. -/
def dinsert (fs : List (String × JVal)) (k : String) (v : JVal) :
    List (String × JVal) :=
  match fs with
  | [] => [(k, v)]
  | (k', v') :: rest =>
      if k' = k then (k', v) :: rest else (k', v') :: dinsert rest k v

/-- `x.get(k)` on a Python dict: `None` when the key is absent. -/
def jGet (v : JVal) (k : String) : Option JVal :=
  match v with
  | .jobj fs => dlookup fs k
  | _ => none

/-- `x.get(k, default)` on a value known to be a dict. -/
def jGetD (fs : List (String × JVal)) (k : String) (dflt : JVal) : JVal :=
  (dlookup fs k).getD dflt

/-- `x[k]` on a JSON value: raises unless `x` is a dict carrying `k`. -/
def jIndex (v : JVal) (k : String) : Except Unit JVal :=
  match v with
  | .jobj fs =>
      match dlookup fs k with
      | some w => .ok w
      | none => .error ()
  | _ => .error ()

/-- Use a JSON value where Python expects a dict (`.get` on it raises
otherwise). -/
def asObj (v : JVal) : Except Unit (List (String × JVal)) :=
  match v with
  | .jobj fs => .ok fs
  | _ => .error ()

/-- Use a JSON value where Python iterates a list.  (Iterating a Python
dict would enumerate its keys and then fail on the element accesses the
program performs; the model reports the error at the loop head.) -/
def asArr (v : JVal) : Except Unit (List JVal) :=
  match v with
  | .jarr xs => .ok xs
  | _ => .error ()

/-- Use a JSON value where Python expects a string (`.lower()`, slicing
and `rsplit` raise on anything else). -/
def asStr (v : JVal) : Except Unit String :=
  match v with
  | .jstr s => .ok s
  | _ => .error ()

/-- Use a JSON value where Python expects an int (arithmetic on anything
else raises). -/
def asInt (v : JVal) : Except Unit Int :=
  match v with
  | .jint n => .ok n
  | _ => .error ()

/-- `x.get(k, d)` immediately consumed by integer arithmetic. -/
def getIntD (fs : List (String × JVal)) (k : String) (dflt : Int) :
    Except Unit Int :=
  match dlookup fs k with
  | none => .ok dflt
  | some v => asInt v

/-! ## cache_utils.py

A cache document is a Python dict decoded from / encoded to JSON; the
file at `CACHE_PATH` is `FileState`.  `json.dump` followed by
`json.load` reproduces the document, so `.stored` keeps the document
itself; `.corrupt` stands for a file whose contents fail to parse. -/

abbrev Doc := List (String × JVal)

def CACHE_VERSION : Int := 1

inductive FileState where
  | missing
  | corrupt
  | stored (contents : JVal)

/-- `load_cache` (src/cache_utils.py:18-31).  Missing file → `None`;
parse failure → `None`; `data.get("version") != CACHE_VERSION` → `None`;
otherwise the decoded document.  A file holding a non-object (on which
`data.get` would raise `AttributeError`) is an error. -/
def load_cache (f : FileState) : Except Unit (Option Doc) :=
  match f with
  | .missing => .ok none
  | .corrupt => .ok none
  | .stored v =>
      match v with
      | .jobj fs =>
          match dlookup fs "version" with
          | some (.jint n) => if n = CACHE_VERSION then .ok (some fs) else .ok none
          | _ => .ok none
      | _ => .error ()

/-- The payload `save_cache` writes (src/cache_utils.py:34-44):
`{"version": CACHE_VERSION, "updated_at": _utc_now_iso(), **data}` —
keys of `data` override the two stamped fields. -/
def save_payload (now : String) (data : Doc) : Doc :=
  data.foldl (fun acc kv => dinsert acc kv.1 kv.2)
    [("version", .jint CACHE_VERSION), ("updated_at", .jstr now)]

/-- `save_cache` (src/cache_utils.py:34-44); `now` is the ambient
`_utc_now_iso()` value. -/
def save_cache (now : String) (data : Doc) : FileState :=
  .stored (.jobj (save_payload now data))

/-- `get_lines_changed` (src/cache_utils.py:51-54); `if not cache`
treats both `None` and the empty dict as absent. -/
def get_lines_changed (cache : Option Doc) : Option JVal :=
  match cache with
  | none => none
  | some fs => if fs.isEmpty then none else dlookup fs "lines_changed"

/-- `set_lines_changed` (src/cache_utils.py:57-72). -/
def set_lines_changed (cache : Option Doc) (additions deletions : Int)
    (last_commit_date : String) : Doc :=
  dinsert (cache.getD []) "lines_changed"
    (.jobj [("additions", .jint additions),
            ("deletions", .jint deletions),
            ("last_commit_date", .jstr last_commit_date)])

/-- `get_recent_commits` (src/cache_utils.py:79-82). -/
def get_recent_commits (cache : Option Doc) : Option JVal :=
  match cache with
  | none => none
  | some fs => if fs.isEmpty then none else dlookup fs "recent_commits"

/-- `set_recent_commits` (src/cache_utils.py:85-97); `now` is the
ambient `_utc_now_iso()` value. -/
def set_recent_commits (cache : Option Doc) (fingerprints : List String)
    (now : String) : Doc :=
  dinsert (cache.getD []) "recent_commits"
    (.jobj [("fingerprints", .jarr (fingerprints.map .jstr)),
            ("last_checked", .jstr now)])

/-! ## Transport client (class Queries, src/github_stats.py)

Network outcomes are oracle parameters.  A decoded body of `none`
models a response whose JSON decodes to Python `None` (a literal
`null` body), which both query functions treat specially. -/

/-- Outcome of one POST attempt: the transport raises, or the response
body decodes to `body` (`none` = JSON `null` → Python `None`). -/
inductive TransportResult where
  | raise
  | ok (body : Option JVal)

/-- `Queries.query` (src/github_stats.py:45-77): one POST via the
asynchronous transport; only if that raises, one POST via the
synchronous `requests` fallback; a `None` body falls through to
`return dict()`; an exception raised by the fallback itself is not
caught by the bare `except:` and propagates.  The Bool records whether
the fallback transport was invoked. -/
def query (primary fallback : TransportResult) : Except Unit JVal × Bool :=
  match primary with
  | .ok (some r) => (.ok r, false)
  | .ok none => (.ok (.jobj []), false)
  | .raise =>
      match fallback with
      | .ok (some r) => (.ok r, true)
      | .ok none => (.ok (.jobj []), true)
      | .raise => (.error (), true)

/-- Outcome of the synchronous fallback GET inside `query_rest`'s
`except` branch: 202, 200 with a decoded body, any other status
(falls through, loop continues), or an exception (uncaught). -/
inductive FallbackResp where
  | fb202
  | fb200 (body : Option JVal)
  | fbOther
  | fbRaise

/-- Outcome of one loop iteration's primary GET in `query_rest`:
status 202; any other status with decoded body `body`; or an aiohttp
exception, handing over to the fallback GET. -/
inductive RestResp where
  | async202
  | asyncBody (body : Option JVal)
  | asyncRaise (fb : FallbackResp)

structure RestOutcome where
  /-- `ok none` is reachable: the fallback's 200 branch returns
  `r_requests.json()` unconditionally, which may be Python `None`. -/
  result : Except Unit (Option JVal)
  /-- number of GET requests issued (one per loop iteration entered) -/
  polls : Nat
  /-- number of `asyncio.sleep(2)` pauses performed -/
  sleeps : Nat

/-- `Queries.query_rest` (src/github_stats.py:87-128) with `fuel` loop
iterations remaining, about to issue attempt number `i`; `oracle n` is
the outcome of the `n`-th GET.  The query parameters never change
between iterations (the source re-normalises the same `params` dict and
stripped path each time), so a retry re-issues the same request.
202 → `asyncio.sleep(2)` and `continue`; a non-202 response whose body
decodes to non-`None` is returned at once; a `None` body falls off the
`try` block and retries without sleeping; in the fallback: 202 →
sleep and retry, 200 → its body is returned, any other status retries,
an exception propagates; an exhausted loop returns `dict()`. -/
def query_rest_aux (oracle : Nat → RestResp) : Nat → Nat → RestOutcome
  | 0, _ => ⟨.ok (some (.jobj [])), 0, 0⟩
  | fuel + 1, i =>
      match oracle i with
      | .async202 =>
          let r := query_rest_aux oracle fuel (i + 1)
          ⟨r.result, r.polls + 1, r.sleeps + 1⟩
      | .asyncBody (some b) => ⟨.ok (some b), 1, 0⟩
      | .asyncBody none =>
          let r := query_rest_aux oracle fuel (i + 1)
          ⟨r.result, r.polls + 1, r.sleeps⟩
      | .asyncRaise fb =>
          match fb with
          | .fb202 =>
              let r := query_rest_aux oracle fuel (i + 1)
              ⟨r.result, r.polls + 1, r.sleeps + 1⟩
          | .fb200 b => ⟨.ok b, 1, 0⟩
          | .fbOther =>
              let r := query_rest_aux oracle fuel (i + 1)
              ⟨r.result, r.polls + 1, r.sleeps⟩
          | .fbRaise => ⟨.error (), 1, 0⟩

/-- `Queries.query_rest`: `for _ in range(60)` around one attempt. -/
def query_rest (oracle : Nat → RestResp) : RestOutcome :=
  query_rest_aux oracle 60 0

/-! ## Configuration flag (src/generate_images.py, main) -/

/-- Python `str.replace(old, new)` for a single-character `old` (the
only use in the source replaces `"Z"`): every occurrence of the
character is replaced by the replacement string. -/
def pyReplaceChar (s : String) (c : Char) (r : String) : String :=
  ⟨(s.toList.map (fun ch => if ch = c then r.toList else [ch])).flatten⟩

/-- Python `str.split(sep)` for a single-character separator (the
separators the source uses are `"@"`, `"/"` and `"\n"`): splits at
every occurrence, keeps empty parts, never returns an empty list. -/
def pySplitChar (s : String) (c : Char) : List String :=
  go s.toList []
where
  go : List Char → List Char → List String
    | [], acc => [⟨acc.reverse⟩]
    | ch :: rest, acc =>
        if ch = c then ⟨acc.reverse⟩ :: go rest [] else go rest (ch :: acc)

/-- A parsed datetime: `aware` marks the presence of a UTC offset;
`micros` is microseconds on a linear time scale, offset-normalised for
aware values (Python compares aware datetimes in UTC). -/
structure PyDateTime where
  aware : Bool
  micros : Int
  deriving DecidableEq

def digitVal (c : Char) : Option Nat :=
  if c.isDigit then some (c.toNat - '0'.toNat) else none

/-- Read exactly `n` decimal digits, most significant first. -/
def readDigits : Nat → Nat → List Char → Option (Nat × List Char)
  | acc, 0, cs => some (acc, cs)
  | acc, n + 1, c :: cs =>
      match digitVal c with
      | some d => readDigits (acc * 10 + d) n cs
      | none => none
  | _, _ + 1, [] => none

def expectChar (c : Char) : List Char → Option (List Char)
  | c' :: cs => if c' = c then some cs else none
  | [] => none

def isLeapYear (y : Nat) : Bool :=
  (y % 4 == 0 && y % 100 != 0) || y % 400 == 0

def daysInMonth (y m : Nat) : Nat :=
  if m = 2 then (if isLeapYear y then 29 else 28)
  else if m = 4 ∨ m = 6 ∨ m = 9 ∨ m = 11 then 30
  else 31

def daysBeforeMonth (y m : Nat) : Nat :=
  (List.range (m - 1)).foldl (fun acc i => acc + daysInMonth y (i + 1)) 0

/-- Days from 0001-01-01 to the start of year `y` (proleptic Gregorian,
as Python's `datetime` uses). -/
def daysBeforeYear (y : Nat) : Nat :=
  let n := y - 1
  n * 365 + n / 4 - n / 100 + n / 400

def toOrdinalDays (y m d : Nat) : Nat :=
  daysBeforeYear y + daysBeforeMonth y m + (d - 1)

/-- Optional fractional-second part: `.` followed by 1 to 6 digits,
scaled to microseconds. -/
def readFrac : List Char → Option (Nat × List Char)
  | '.' :: cs =>
      let digs := cs.takeWhile (·.isDigit)
      if digs.length = 0 ∨ 6 < digs.length then none
      else
        some ((digs.foldl (fun a c => a * 10 + (c.toNat - '0'.toNat)) 0) *
          10 ^ (6 - digs.length), cs.drop digs.length)
  | cs => some (0, cs)

/-- Optional trailing UTC offset `±HH:MM`; absent → naive datetime. -/
def readOffset : List Char → Option (Option Int)
  | [] => some none
  | sign :: cs =>
      if sign = '+' ∨ sign = '-' then
        match readDigits 0 2 cs with
        | some (hh, ':' :: cs₂) =>
            match readDigits 0 2 cs₂ with
            | some (mm, []) =>
                if hh ≤ 23 ∧ mm ≤ 59 then
                  some (some (if sign = '-' then -((hh : Int) * 60 + mm)
                    else (hh : Int) * 60 + mm))
                else none
            | _ => none
        | _ => none
      else none

/-- `datetime.fromisoformat` on the shapes this program produces;
anything else raises `ValueError` (`none` here). -/
def fromisoformat (s : String) : Option PyDateTime := do
  let cs := s.toList
  let (y, cs) ← readDigits 0 4 cs
  let cs ← expectChar '-' cs
  let (mo, cs) ← readDigits 0 2 cs
  let cs ← expectChar '-' cs
  let (d, cs) ← readDigits 0 2 cs
  let cs ← expectChar 'T' cs
  let (h, cs) ← readDigits 0 2 cs
  let cs ← expectChar ':' cs
  let (mi, cs) ← readDigits 0 2 cs
  let cs ← expectChar ':' cs
  let (sec, cs) ← readDigits 0 2 cs
  let (us, cs) ← readFrac cs
  let off ← readOffset cs
  if 1 ≤ y ∧ 1 ≤ mo ∧ mo ≤ 12 ∧ 1 ≤ d ∧ d ≤ daysInMonth y mo ∧
      h ≤ 23 ∧ mi ≤ 59 ∧ sec ≤ 59 then
    let base : Int :=
      ((((toOrdinalDays y mo d : Int) * 24 + h) * 60 + mi) * 60 + sec) *
        1000000 + us
    match off with
    | none => some ⟨false, base⟩
    | some offMin => some ⟨true, base - offMin * 60 * 1000000⟩
  else none

/-- Python `<=` between datetimes; comparing a naive with an aware
value raises `TypeError`. -/
def pyDtLe (a b : PyDateTime) : Except Unit Bool :=
  if a.aware = b.aware then .ok (decide (a.micros ≤ b.micros))
  else .error ()

/-- `datetime.fromisoformat(x.replace("Z", "+00:00"))` as the source
performs it, with `ValueError` as an error. -/
def parseDt (s : String) : Except Unit PyDateTime :=
  match fromisoformat (pyReplaceChar s 'Z' "+00:00") with
  | some dt => .ok dt
  | none => .error ()

/-! ## Stats.lines_changed (src/github_stats.py:499-550, 572-618)

Network oracles: `statsO repo` is the decoded body of
`/repos/{repo}/stats/contributors`; `commitO repo sha` the decoded body
of `/repos/{repo}/commits/{sha}`; `events` the decoded body of
`/users/{username}/events`. -/

/-- Inner week loop of the cold path (src/github_stats.py:522-524). -/
def cold_weeks : List JVal → Int × Int → Except Unit (Int × Int)
  | [], acc => .ok acc
  | week :: rest, (a, d) => do
      let weekFs ← asObj week
      let wa ← getIntD weekFs "a" 0
      let wd ← getIntD weekFs "d" 0
      cold_weeks rest (a + wa, d + wd)

/-- Contributor loop of the cold path (src/github_stats.py:518-524):
records whose `author.login` differs from the username are skipped. -/
def cold_authors (username : String) :
    List JVal → Int × Int → Except Unit (Int × Int)
  | [], acc => .ok acc
  | author_obj :: rest, acc => do
      let aoFs ← asObj author_obj
      let authorFs ← asObj (jGetD aoFs "author" (.jobj []))
      match dlookup authorFs "login" with
      | some (.jstr s) =>
          if s = username then do
            let weeks ← asArr (jGetD aoFs "weeks" (.jarr []))
            let acc' ← cold_weeks weeks acc
            cold_authors username rest acc'
          else cold_authors username rest acc
      | _ => cold_authors username rest acc

/-- Repository loop of the cold path (src/github_stats.py:513-524):
a non-list contributor-stats body is skipped
(`if not isinstance(r, list): continue`). -/
def cold_repos (statsO : String → JVal) (username : String) :
    List String → Int × Int → Except Unit (Int × Int)
  | [], acc => .ok acc
  | repo :: rest, acc =>
      match statsO repo with
      | .jarr authors => do
          let acc' ← cold_authors username authors acc
          cold_repos statsO username rest acc'
      | _ => cold_repos statsO username rest acc

/-- Per-commit inner loop of `lines_changed_since`
(src/github_stats.py:591-616), threading
`(additions, deletions, newest_commit_date)`. -/
def lcs_commits (commitO : String → String → JVal) (event : JVal)
    (since_dt : PyDateTime) :
    List JVal → Int × Int × String → Except Unit (Int × Int × String)
  | [], acc => .ok acc
  | commit :: rest, (adds, dels, newest) => do
      let skip := lcs_commits commitO event since_dt rest (adds, dels, newest)
      let repoV ← jIndex event "repo"
      let repo ← asStr (← jIndex repoV "name")
      let sha ← asStr (← jIndex commit "sha")
      let data := commitO repo sha
      if ¬ data.pyTruthy then skip
      else do
        let dataFs ← asObj data
        match dlookup dataFs "commit" with
        | none => skip
        | some commitObj => do
            let author ← jIndex commitObj "author"
            let commitIso ← asStr (← jIndex author "date")
            let commitDt ← parseDt commitIso
            let le ← pyDtLe commitDt since_dt
            if le then skip
            else
              match dlookup dataFs "stats" with
              | none => skip
              | some stats =>
                  if ¬ stats.pyTruthy then skip
                  else do
                    let statsFs ← asObj stats
                    let a ← getIntD statsFs "additions" 0
                    let d ← getIntD statsFs "deletions" 0
                    let newest' :=
                      if decide (newest < commitIso) then commitIso
                      else newest
                    lcs_commits commitO event since_dt rest
                      (adds + a, dels + d, newest')

/-- Event loop of `lines_changed_since` (src/github_stats.py:587-616):
non-`PushEvent` entries are skipped. -/
def lcs_events (commitO : String → String → JVal) (since_dt : PyDateTime) :
    List JVal → Int × Int × String → Except Unit (Int × Int × String)
  | [], acc => .ok acc
  | event :: rest, acc => do
      let eventFs ← asObj event
      match dlookup eventFs "type" with
      | some (.jstr "PushEvent") => do
          let payload ← jIndex event "payload"
          let payloadFs ← asObj payload
          let cl ← asArr (jGetD payloadFs "commits" (.jarr []))
          let acc' ← lcs_commits commitO event since_dt cl acc
          lcs_events commitO since_dt rest acc'
      | _ => lcs_events commitO since_dt rest acc

/-- `Stats.lines_changed_since` (src/github_stats.py:572-618). -/
def lines_changed_since (commitO : String → String → JVal)
    (events : JVal) (since_iso : String) :
    Except Unit (Int × Int × String) := do
  let since_dt ← parseDt since_iso
  let evs ← asArr events
  lcs_events commitO since_dt evs (0, 0, since_iso)

/-- Cold branch of `Stats.lines_changed` (src/github_stats.py:509-531);
`now` is the watermark timestamp taken at fetch completion, `nowSave`
the (separately sampled) timestamp `save_cache` stamps. -/
def lines_changed_cold (cache : Option Doc) (repos : List String)
    (statsO : String → JVal) (username now nowSave : String) :
    Except Unit ((Int × Int) × FileState) := do
  let acc ← cold_repos statsO username repos (0, 0)
  let cache' := set_lines_changed cache acc.1 acc.2 now
  .ok ((acc.1, acc.2), save_cache nowSave cache')

/-- `Stats.lines_changed` (src/github_stats.py:499-550).  `repos` is
the discovered repository set (its Python iteration order is immaterial
to the sums); returns the `(additions, deletions)` pair and the cache
file state afterwards. -/
def lines_changed (file : FileState) (repos : List String)
    (statsO : String → JVal) (events : JVal)
    (commitO : String → String → JVal) (username now nowSave : String) :
    Except Unit ((Int × Int) × FileState) := do
  let cache ← load_cache file
  match get_lines_changed cache with
  | some lcv =>
      if lcv.pyTruthy then do
        let additions ← asInt (← jIndex lcv "additions")
        let deletions ← asInt (← jIndex lcv "deletions")
        let since ← asStr (← jIndex lcv "last_commit_date")
        let (delta_add, delta_del, newest) ←
          lines_changed_since commitO events since
        if delta_add = 0 ∧ delta_del = 0 then
          .ok ((additions, deletions), file)
        else do
          let additions' := additions + delta_add
          let deletions' := deletions + delta_del
          let cache' := set_lines_changed cache additions' deletions' newest
          .ok ((additions', deletions'), save_cache nowSave cache')
      else lines_changed_cold cache repos statsO username now nowSave
  | none => lines_changed_cold cache repos statsO username now nowSave

/-! ## Stats.recent_commits (src/github_stats.py:707-799) -/

/-- Event loop of `recent_commit_fingerprints`
(src/github_stats.py:748-766): head-commit fingerprints
`owner/repo@short_sha`, deduplicated in order, stopping at `limit`. -/
def rcf_events (limit : Nat) :
    List JVal → List String → Except Unit (List String)
  | [], fps => .ok fps
  | event :: rest, fps => do
      let eventFs ← asObj event
      match dlookup eventFs "type" with
      | some (.jstr "PushEvent") => do
          let repoV ← jIndex event "repo"
          let repo ← asStr (← jIndex repoV "name")
          let payload ← jIndex event "payload"
          let payloadFs ← asObj payload
          let headV := jGetD payloadFs "head" .jnull
          if ¬ headV.pyTruthy then
            rcf_events limit rest fps
          else do
            let head ← asStr headV
            let sha := head.take 7
            let fp := repo ++ "@" ++ sha
            let fps' := if fp ∈ fps then fps else fps ++ [fp]
            if limit ≤ fps'.length then .ok fps'
            else rcf_events limit rest fps'
      | _ => rcf_events limit rest fps

/-- `Stats.recent_commit_fingerprints` (src/github_stats.py:737-768). -/
def recent_commit_fingerprints (events : JVal) (limit : Nat) :
    Except Unit (List String) := do
  let evs ← asArr events
  rcf_events limit evs []

/-- Python `repo_full, short_sha = fp.rsplit("@", 1)`: split at the
last `@`; a string without `@` makes the 2-tuple unpacking raise. -/
def rsplitAtLast (s : String) : Except Unit (String × String) :=
  match pySplitChar s '@' with
  | [] => .error ()
  | [_] => .error ()
  | parts => .ok (String.intercalate "@" parts.dropLast, parts.getLastD "")

/-- Python `owner, repo = repo_full.split("/")`: exactly two parts or
the unpacking raises. -/
def splitSlash2 (s : String) : Except Unit (String × String) :=
  match pySplitChar s '/' with
  | [a, b] => .ok (a, b)
  | _ => .error ()

structure CommitOut where
  repo : String
  message : String
  author : String
  date : String
  sha : String
  deriving DecidableEq

/-- `Stats.fetch_commit_details` (src/github_stats.py:771-799).
`detailO owner repo sha` is the decoded body of
`/repos/{owner}/{repo}/commits/{sha}`; one REST request is issued per
fingerprint, counted in the second accumulator component. -/
def fetch_commit_details (detailO : String → String → String → JVal) :
    List JVal → List CommitOut × Nat → Except Unit (List CommitOut × Nat)
  | [], acc => .ok acc
  | fpV :: rest, (commits, fetches) => do
      let fp ← asStr fpV
      let (repo_full, short_sha) ← rsplitAtLast fp
      let (owner, repo) ← splitSlash2 repo_full
      let data := detailO owner repo short_sha
      let fetches' := fetches + 1
      if ¬ data.pyTruthy then
        fetch_commit_details detailO rest (commits, fetches')
      else do
        let dataFs ← asObj data
        match dlookup dataFs "commit" with
        | none => fetch_commit_details detailO rest (commits, fetches')
        | some commitObj => do
            let msg ← asStr (← jIndex commitObj "message")
            let author ← jIndex commitObj "author"
            let name ← asStr (← jIndex author "name")
            let date ← asStr (← jIndex author "date")
            let c : CommitOut :=
              ⟨owner ++ "/" ++ repo, (pySplitChar msg '\n').headD "",
               name, date, short_sha⟩
            fetch_commit_details detailO rest (commits ++ [c], fetches')

/-- The cached fingerprints as `recent_commits` reads them
(src/github_stats.py:713-715): `cached["fingerprints"] if cached
else []`. -/
def old_fps_of (cache : Option Doc) : Except Unit JVal :=
  match get_recent_commits cache with
  | some v => if v.pyTruthy then jIndex v "fingerprints" else .ok (.jarr [])
  | none => .ok (.jarr [])

/-- Python `==` between a list of `str` (the fresh fingerprints) and a
JSON-decoded value (the cached list): elementwise string equality;
non-string elements and non-list values compare unequal, without
raising. -/
def pyEqStrList (xs : List String) (v : JVal) : Bool :=
  match v with
  | .jarr ys => go xs ys
  | _ => false
where
  go : List String → List JVal → Bool
    | [], [] => true
    | x :: xs, .jstr y :: ys => (x == y) && go xs ys
    | _ :: _, _ :: _ => false
    | _, _ => false

/-- `Stats.recent_commits` (src/github_stats.py:707-734).  Returns the
commit list, the cache file state afterwards, and the number of
per-commit detail requests issued.  `now` is the `last_checked`
timestamp `set_recent_commits` samples, `nowSave` the one `save_cache`
stamps. -/
def recent_commits (file : FileState) (events : JVal)
    (detailO : String → String → String → JVal) (limit : Nat)
    (now nowSave : String) :
    Except Unit (List CommitOut × FileState × Nat) := do
  let cache ← load_cache file
  let old_fps ← old_fps_of cache
  let new_fps ← recent_commit_fingerprints events limit
  if !old_fps.pyTruthy && new_fps.isEmpty then
    let cache₁ := set_recent_commits cache [] now
    .ok ([], save_cache nowSave cache₁, 0)
  else if old_fps.pyTruthy && pyEqStrList new_fps old_fps then do
    let oldList ← asArr old_fps
    let (commits, fetches) ← fetch_commit_details detailO oldList ([], 0)
    .ok (commits, file, fetches)
  else do
    let (commits, fetches) ←
      fetch_commit_details detailO (new_fps.map .jstr) ([], 0)
    let cache₁ := set_recent_commits cache new_fps now
    .ok (commits, save_cache nowSave cache₁, fetches)

/-! ## Typed warm-path scenarios

`TEvent`/`TDetail` describe the well-formed event-stream shapes the
warm path consumes; the `encode*` functions produce the raw JSON the
embedded functions receive.  `qualifies` is the spec-side selection of
C2: a commit counts exactly when its detail is fetchable, its authored
timestamp is strictly newer than the watermark, and it carries stats. -/

structure TCommit where
  sha : String
  deriving DecidableEq

structure TEvent where
  typ : String
  repoName : String
  commits : List TCommit
  deriving DecidableEq

structure TDetail where
  date : String
  stats : Option (Int × Int)
  deriving DecidableEq

def encodeTCommit (c : TCommit) : JVal := .jobj [("sha", .jstr c.sha)]

def encodeTEvent (e : TEvent) : JVal :=
  .jobj [("type", .jstr e.typ),
         ("repo", .jobj [("name", .jstr e.repoName)]),
         ("payload",
          .jobj [("commits", .jarr (e.commits.map encodeTCommit))])]

/-- A commit-detail response: `none` stands for a body the source
skips (`if not data or "commit" not in data`); a missing `stats` entry
stands for the bodies the source skips at `if not stats`. -/
def encodeTDetail : Option TDetail → JVal
  | none => .jobj []
  | some d =>
      .jobj
        (("commit", .jobj [("author", .jobj [("date", .jstr d.date)])]) ::
          (match d.stats with
           | none => []
           | some (sa, sd) =>
               [("stats", .jobj [("additions", .jint sa),
                                 ("deletions", .jint sd)])]))

def qualifies (tO : String → String → Option TDetail)
    (since_dt : PyDateTime) (repo : String) (c : TCommit) :
    Option (Int × Int × String) :=
  match tO repo c.sha with
  | none => none
  | some d =>
      match fromisoformat (pyReplaceChar d.date 'Z' "+00:00") with
      | none => none
      | some dt =>
          if dt.aware = since_dt.aware ∧ since_dt.micros < dt.micros then
            match d.stats with
            | some (sa, sd) => some (sa, sd, d.date)
            | none => none
          else none

/-- The qualifying commits of a warm-path run, in processing order. -/
def qualList (tO : String → String → Option TDetail)
    (since_dt : PyDateTime) (evs : List TEvent) :
    List (Int × Int × String) :=
  (evs.filter (fun e => e.typ == "PushEvent")).flatMap
    (fun e => e.commits.filterMap (qualifies tO since_dt e.repoName))

/-- String-lexicographic maximum of qualifying authored timestamps,
seeded with the watermark. -/
def newestOf (since_iso : String) (l : List (Int × Int × String)) : String :=
  l.foldl (fun n t => if n < t.2.2 then t.2.2 else n) since_iso

/-- Mirror recursion of the inner commit loop, on typed commits. -/
def specCommits (tO : String → String → Option TDetail)
    (since_dt : PyDateTime) (repo : String) :
    List TCommit → Int × Int × String → Int × Int × String
  | [], acc => acc
  | c :: rest, (a, d, n) =>
      match qualifies tO since_dt repo c with
      | none => specCommits tO since_dt repo rest (a, d, n)
      | some (da, dd, date) =>
          specCommits tO since_dt repo rest
            (a + da, d + dd, if n < date then date else n)

/-- Mirror recursion of the event loop, on typed events. -/
def specEvents (tO : String → String → Option TDetail)
    (since_dt : PyDateTime) :
    List TEvent → Int × Int × String → Int × Int × String
  | [], acc => acc
  | e :: rest, acc =>
      if e.typ = "PushEvent" then
        specEvents tO since_dt rest
          (specCommits tO since_dt e.repoName e.commits acc)
      else specEvents tO since_dt rest acc

/-! ### Association-list lemmas -/

theorem except_bind_ok {α β : Type} (a : α) (f : α → Except Unit β) :
    (Except.ok a >>= f) = f a := rfl

theorem except_bind_err {α β : Type} (f : α → Except Unit β) :
    ((Except.error () : Except Unit α) >>= f) = .error () := rfl

theorem dlookup_cons (k₀ k : String) (v₀ : JVal) (tl : Doc) :
    dlookup ((k₀, v₀) :: tl) k = if k₀ = k then some v₀ else dlookup tl k :=
  rfl

theorem dinsert_cons_hit (tl : Doc) (k₀ k : String) (v₀ v : JVal)
    (h : k₀ = k) : dinsert ((k₀, v₀) :: tl) k v = (k₀, v) :: tl := by
  simp [dinsert, h]

theorem dinsert_cons_miss (tl : Doc) (k₀ k : String) (v₀ v : JVal)
    (h : ¬ k₀ = k) :
    dinsert ((k₀, v₀) :: tl) k v = (k₀, v₀) :: dinsert tl k v := by
  simp [dinsert, h]

theorem dlookup_dinsert_self (fs : Doc) (k : String) (v : JVal) :
    dlookup (dinsert fs k v) k = some v := by
  induction fs with
  | nil => simp [dinsert, dlookup]
  | cons hd tl ih =>
      obtain ⟨k', v'⟩ := hd
      by_cases h : k' = k
      · rw [dinsert_cons_hit tl k' k v' v h, dlookup_cons, if_pos h]
      · rw [dinsert_cons_miss tl k' k v' v h, dlookup_cons, if_neg h]
        exact ih

theorem dlookup_dinsert_ne (fs : Doc) (k' k : String) (v : JVal)
    (h : k' ≠ k) : dlookup (dinsert fs k' v) k = dlookup fs k := by
  induction fs with
  | nil => simp [dinsert, dlookup, h]
  | cons hd tl ih =>
      obtain ⟨k₀, v₀⟩ := hd
      by_cases h₀ : k₀ = k'
      · rw [dinsert_cons_hit tl k₀ k' v₀ v h₀]
        simp only [dlookup_cons, if_neg (fun hh => h (h₀.symm.trans hh))]
      · rw [dinsert_cons_miss tl k₀ k' v₀ v h₀]
        by_cases h₁ : k₀ = k
        · simp only [dlookup_cons, if_pos h₁]
        · simp only [dlookup_cons, if_neg h₁]
          exact ih

theorem dlookup_eq_none_of_not_mem (fs : Doc) (k : String)
    (h : k ∉ fs.map Prod.fst) : dlookup fs k = none := by
  induction fs with
  | nil => rfl
  | cons hd tl ih =>
      obtain ⟨k₀, v₀⟩ := hd
      simp only [List.map_cons, List.mem_cons] at h
      push_neg at h
      rw [dlookup_cons, if_neg (fun hh => h.1 hh.symm)]
      exact ih h.2

theorem keys_dinsert_subset (fs : Doc) (k : String) (v : JVal) :
    ∀ k', k' ∈ (dinsert fs k v).map Prod.fst →
      k' ∈ fs.map Prod.fst ∨ k' = k := by
  induction fs with
  | nil =>
      intro k' hk'
      simp only [dinsert, List.map_cons, List.map_nil,
        List.mem_singleton] at hk'
      exact Or.inr hk'
  | cons hd tl ih =>
      intro k' hk'
      obtain ⟨k₀, v₀⟩ := hd
      by_cases h₀ : k₀ = k
      · rw [dinsert_cons_hit tl k₀ k v₀ v h₀] at hk'
        simp only [List.map_cons, List.mem_cons] at hk'
        simp only [List.map_cons, List.mem_cons]
        rcases hk' with hh | hh
        · exact Or.inl (Or.inl hh)
        · exact Or.inl (Or.inr hh)
      · rw [dinsert_cons_miss tl k₀ k v₀ v h₀] at hk'
        simp only [List.map_cons, List.mem_cons] at hk'
        simp only [List.map_cons, List.mem_cons]
        rcases hk' with hh | hh
        · exact Or.inl (Or.inl hh)
        · rcases ih k' hh with hm | hm
          · exact Or.inl (Or.inr hm)
          · exact Or.inr hm

theorem nodup_keys_dinsert (fs : Doc) (k : String) (v : JVal)
    (h : (fs.map Prod.fst).Nodup) :
    ((dinsert fs k v).map Prod.fst).Nodup := by
  induction fs with
  | nil => simp [dinsert]
  | cons hd tl ih =>
      obtain ⟨k₀, v₀⟩ := hd
      simp only [List.map_cons, List.nodup_cons] at h
      by_cases h₀ : k₀ = k
      · rw [dinsert_cons_hit tl k₀ k v₀ v h₀]
        simp only [List.map_cons, List.nodup_cons]
        exact ⟨h.1, h.2⟩
      · rw [dinsert_cons_miss tl k₀ k v₀ v h₀]
        simp only [List.map_cons, List.nodup_cons]
        refine ⟨fun hmem => ?_, ih h.2⟩
        rcases keys_dinsert_subset tl k v k₀ hmem with hh | hh
        · exact h.1 hh
        · exact h₀ hh

/-- Folding Python dict-update over a unique-keyed document: a key of the
update wins, otherwise the base value survives. -/
theorem dlookup_foldl_dinsert (x : Doc) (b : Doc) (k : String)
    (hnodup : (x.map Prod.fst).Nodup) :
    dlookup (x.foldl (fun acc kv => dinsert acc kv.1 kv.2) b) k =
      match dlookup x k with
      | some v => some v
      | none => dlookup b k := by
  induction x generalizing b with
  | nil => rfl
  | cons hd tl ih =>
      obtain ⟨k₀, v₀⟩ := hd
      simp only [List.map_cons, List.nodup_cons] at hnodup
      simp only [List.foldl_cons]
      rw [ih (dinsert b k₀ v₀) hnodup.2]
      by_cases h : k₀ = k
      · subst h
        rw [dlookup_eq_none_of_not_mem tl k₀ hnodup.1, dlookup_cons,
          if_pos rfl]
        simp [dlookup_dinsert_self]
      · rw [dlookup_cons, if_neg h]
        cases hdl : dlookup tl k with
        | some v => simp
        | none => simp [dlookup_dinsert_ne b k₀ k v₀ h]

theorem dlookup_save_payload (x : Doc) (now k : String)
    (hnodup : (x.map Prod.fst).Nodup) :
    dlookup (save_payload now x) k =
      match dlookup x k with
      | some v => some v
      | none =>
          dlookup [("version", .jint CACHE_VERSION),
                   ("updated_at", .jstr now)] k := by
  exact dlookup_foldl_dinsert x _ k hnodup

/-- C10: `set_lines_changed` leaves every key other than
`"lines_changed"` unchanged, `set_recent_commits` every key other than
`"recent_commits"`, and through `save_cache`'s payload the other
sub-cache namespace survives. -/
theorem C10_sub_cache_frame (cache : Option Doc) (doc : Doc) (a d : Int)
    (t now : String) (fps : List String) (k₁ k₂ : String)
    (hnodup : (doc.map Prod.fst).Nodup)
    (h₁ : k₁ ≠ "lines_changed") (h₂ : k₂ ≠ "recent_commits") :
    dlookup (set_lines_changed cache a d t) k₁ = dlookup (cache.getD []) k₁ ∧
    dlookup (set_recent_commits cache fps now) k₂ =
      dlookup (cache.getD []) k₂ ∧
    dlookup (save_payload now (set_lines_changed (some doc) a d t))
      "recent_commits" = dlookup doc "recent_commits" ∧
    dlookup (save_payload now (set_recent_commits (some doc) fps now))
      "lines_changed" = dlookup doc "lines_changed" := by
  refine ⟨?_, ?_, ?_, ?_⟩
  · exact dlookup_dinsert_ne _ _ _ _ (fun hh => h₁ hh.symm)
  · exact dlookup_dinsert_ne _ _ _ _ (fun hh => h₂ hh.symm)
  · rw [show set_lines_changed (some doc) a d t =
      dinsert doc "lines_changed"
        (.jobj [("additions", .jint a), ("deletions", .jint d),
                ("last_commit_date", .jstr t)]) from rfl]
    rw [dlookup_save_payload _ now "recent_commits"
      (nodup_keys_dinsert doc _ _ hnodup)]
    rw [dlookup_dinsert_ne doc "lines_changed" "recent_commits" _
      (by decide)]
    cases h : dlookup doc "recent_commits" <;> simp [dlookup]
  · rw [show set_recent_commits (some doc) fps now =
      dinsert doc "recent_commits"
        (.jobj [("fingerprints", .jarr (fps.map .jstr)),
                ("last_checked", .jstr now)]) from rfl]
    rw [dlookup_save_payload _ now "lines_changed"
      (nodup_keys_dinsert doc _ _ hnodup)]
    rw [dlookup_dinsert_ne doc "recent_commits" "lines_changed" _
      (by decide)]
    cases h : dlookup doc "lines_changed" <;> simp [dlookup]

/-- C10 witness: a concrete document with a populated `recent_commits`
namespace keeps it across a `set_lines_changed` update, and vice versa. -/
theorem C10_witness :
    dlookup (set_lines_changed
        (some [("recent_commits", .jobj [("fingerprints", .jarr [])])])
        8 3 "T1") "recent_commits" =
      dlookup ((some [("recent_commits",
        JVal.jobj [("fingerprints", .jarr [])])] : Option Doc).getD [])
        "recent_commits" ∧
    dlookup (set_recent_commits
        (some [("recent_commits", .jobj [("fingerprints", .jarr [])])])
        ["o/r@abc1234"] "T2") "lines_changed" =
      dlookup ((some [("recent_commits",
        JVal.jobj [("fingerprints", .jarr [])])] : Option Doc).getD [])
        "lines_changed" ∧
    dlookup (save_payload "T2" (set_lines_changed
        (some [("recent_commits", .jobj [("fingerprints", .jarr [])])])
        8 3 "T1")) "recent_commits" =
      dlookup [("recent_commits", JVal.jobj [("fingerprints", .jarr [])])]
        "recent_commits" ∧
    dlookup (save_payload "T2" (set_recent_commits
        (some [("recent_commits", .jobj [("fingerprints", .jarr [])])])
        ["o/r@abc1234"] "T2")) "lines_changed" =
      dlookup [("recent_commits", JVal.jobj [("fingerprints", .jarr [])])]
        "lines_changed" :=
  C10_sub_cache_frame
    (some [("recent_commits", .jobj [("fingerprints", .jarr [])])])
    [("recent_commits", .jobj [("fingerprints", .jarr [])])]
    8 3 "T1" "T2" ["o/r@abc1234"] "recent_commits" "lines_changed"
    (by decide) (by decide) (by decide)

/-! ### Transport client theorems -/

theorem query_rest_aux_polls_le (oracle : Nat → RestResp) :
    ∀ fuel i, (query_rest_aux oracle fuel i).polls ≤ fuel := by
  intro fuel
  induction fuel with
  | zero => intro i; exact Nat.le_refl 0
  | succ n ih =>
      intro i
      simp only [query_rest_aux]
      cases oracle i with
      | async202 => exact Nat.succ_le_succ (ih (i + 1))
      | asyncBody b =>
          cases b with
          | some v => exact Nat.succ_le_succ (Nat.zero_le n)
          | none => exact Nat.succ_le_succ (ih (i + 1))
      | asyncRaise fb =>
          cases fb with
          | fb202 => exact Nat.succ_le_succ (ih (i + 1))
          | fb200 b => exact Nat.succ_le_succ (Nat.zero_le n)
          | fbOther => exact Nat.succ_le_succ (ih (i + 1))
          | fbRaise => exact Nat.succ_le_succ (Nat.zero_le n)

theorem query_rest_aux_all202 (oracle : Nat → RestResp)
    (h : ∀ n, oracle n = .async202) :
    ∀ fuel i, query_rest_aux oracle fuel i =
      ⟨.ok (some (.jobj [])), fuel, fuel⟩ := by
  intro fuel
  induction fuel with
  | zero => intro i; rfl
  | succ n ih =>
      intro i
      simp only [query_rest_aux, h i, ih (i + 1)]

/-- C5 (amended): `query` issues the primary POST; a decoded non-null
body is returned; a null body yields the empty dict without touching
the fallback; only a raised primary invokes the synchronous fallback,
exactly once; a fallback null body yields the empty dict; but a raised
fallback propagates the exception instead of returning empty. -/
theorem C5_query_fallback_once (r : JVal) (fb : TransportResult) :
    query (.ok (some r)) fb = (.ok r, false) ∧
    query (.ok none) fb = (.ok (.jobj []), false) ∧
    query .raise (.ok (some r)) = (.ok r, true) ∧
    query .raise (.ok none) = (.ok (.jobj []), true) ∧
    query .raise .raise = (.error (), true) :=
  ⟨rfl, rfl, rfl, rfl, rfl⟩

/-- C5 counterexample: when both transports raise, `query` propagates
the error past its boundary instead of returning an empty result. -/
theorem C5_counterexample :
    (query .raise .raise).1 = .error () :=
  rfl

/-- C6 (amended): `query_rest` enters at most 60 loop iterations; a 202
response adds one 2-second sleep and retries the same request; a non-202
response with a non-null decoded body returns it at once after a single
poll and no sleep; a null-decoding response retries without sleeping;
and a run of 60 straight 202s returns the empty dict after 60 polls and
60 sleeps. -/
theorem C6_query_rest_polling (o₀ o₁ o₂ o₃ o₄ : Nat → RestResp)
    (i₁ i₂ i₄ fuel₁ fuel₂ fuel₄ : Nat) (b : JVal)
    (h₁ : o₁ i₁ = .async202)
    (h₂ : o₂ i₂ = .asyncBody (some b))
    (h₃ : ∀ n, o₃ n = .async202)
    (h₄ : o₄ i₄ = .asyncBody none) :
    (query_rest o₀).polls ≤ 60 ∧
    query_rest_aux o₁ (fuel₁ + 1) i₁ =
      ⟨(query_rest_aux o₁ fuel₁ (i₁ + 1)).result,
       (query_rest_aux o₁ fuel₁ (i₁ + 1)).polls + 1,
       (query_rest_aux o₁ fuel₁ (i₁ + 1)).sleeps + 1⟩ ∧
    query_rest_aux o₂ (fuel₂ + 1) i₂ = ⟨.ok (some b), 1, 0⟩ ∧
    query_rest o₃ = ⟨.ok (some (.jobj [])), 60, 60⟩ ∧
    query_rest_aux o₄ (fuel₄ + 1) i₄ =
      ⟨(query_rest_aux o₄ fuel₄ (i₄ + 1)).result,
       (query_rest_aux o₄ fuel₄ (i₄ + 1)).polls + 1,
       (query_rest_aux o₄ fuel₄ (i₄ + 1)).sleeps⟩ := by
  refine ⟨query_rest_aux_polls_le o₀ 60 0, ?_, ?_, ?_, ?_⟩
  · simp only [query_rest_aux, h₁]
  · simp only [query_rest_aux, h₂]
  · exact query_rest_aux_all202 o₃ h₃ 60 0
  · simp only [query_rest_aux, h₄]

/-- C6 witness: concrete oracles exercising each clause. -/
theorem C6_witness :
    (query_rest (fun _ => .async202)).polls ≤ 60 ∧
    query_rest_aux (fun _ => .async202) (59 + 1) 0 =
      ⟨(query_rest_aux (fun _ => .async202) 59 (0 + 1)).result,
       (query_rest_aux (fun _ => .async202) 59 (0 + 1)).polls + 1,
       (query_rest_aux (fun _ => .async202) 59 (0 + 1)).sleeps + 1⟩ ∧
    query_rest_aux (fun _ => .asyncBody (some (.jstr "x"))) (59 + 1) 0 =
      ⟨.ok (some (.jstr "x")), 1, 0⟩ ∧
    query_rest (fun _ => .async202) = ⟨.ok (some (.jobj [])), 60, 60⟩ ∧
    query_rest_aux (fun _ => .asyncBody none) (59 + 1) 0 =
      ⟨(query_rest_aux (fun _ => .asyncBody none) 59 (0 + 1)).result,
       (query_rest_aux (fun _ => .asyncBody none) 59 (0 + 1)).polls + 1,
       (query_rest_aux (fun _ => .asyncBody none) 59 (0 + 1)).sleeps⟩ :=
  C6_query_rest_polling (fun _ => .async202) (fun _ => .async202)
    (fun _ => .asyncBody (some (.jstr "x"))) (fun _ => .async202)
    (fun _ => .asyncBody none) 0 0 0 59 59 59 (.jstr "x")
    rfl rfl (fun _ => rfl) rfl

/-- C6 counterexample: the first poll is a non-202 response (its body
decodes to `None`), yet `query_rest` does not return it immediately —
it keeps polling and returns the second response. -/
theorem C6_counterexample :
    (fun n => if n = 0 then RestResp.asyncBody none
      else RestResp.asyncBody (some (.jstr "x"))) 0 =
        RestResp.asyncBody none ∧
    query_rest (fun n => if n = 0 then RestResp.asyncBody none
      else RestResp.asyncBody (some (.jstr "x"))) =
      ⟨.ok (some (.jstr "x")), 2, 0⟩ ∧
    (2 : Nat) ≠ 1 :=
  ⟨rfl, rfl, by decide⟩

/-! ### Configuration flag theorems -/

